import Mathlib

/-!
Shallow embedding of the retrieval-and-ranking core of the reachy2_expert_agent
repository, together with theorems checking the natural-language specification
against it.

The embedded code lives in:
* `utils/config.py` — static configuration (`QUERY_KEYWORDS`, `COLLECTION_WEIGHTS`,
  `TOP_K_CHUNKS`, `RERANK_TOP_K`);
* `utils/rag_utils.py` — `detect_query_type`, `RAGPipeline.get_collection_weights`,
  `RAGPipeline.process_query` (fan-out, weighting, merge/sort/truncate),
  `ReRanker.rerank`, and the `VectorStore` defined at the bottom of that module
  (the one the pipeline actually resolves at runtime);
* `utils/db_utils.py` — the legacy `VectorStore` (`add_documents`,
  `query_collection`, `get_collection_with_dimension_check`);
* `src/utils/db_utils.py` — the src-layout `VectorStore` (batched `add_documents`
  with retry, query-side instruction prefixes, dimension check).

Distances, weights and scores are modelled as rationals (`ℚ`); Python strings as
`String`; a raised exception as the `Except.error` branch carrying the message.
Python's stable `list.sort` / `sorted` is modelled by `List.insertionSort`, which
is a stable sort for the decidable total preorders used here.
-/

namespace Reachy

/-- `RAGConfig.TOP_K_CHUNKS` from `utils/config.py`. -/
def TOP_K_CHUNKS : Nat := 5

/-- `RAGConfig.RERANK_TOP_K` from `utils/config.py`. -/
def RERANK_TOP_K : Nat := 3

/-- `RAGConfig.QUERY_KEYWORDS` from `utils/config.py`, in the dict's insertion
order (the iteration order of `detect_query_type`). -/
def QUERY_KEYWORDS : List (String × List String) :=
  [("code", ["how to", "example", "implement", "code", "function",
             "method", "call", "use", "write", "program"]),
   ("concept", ["what is", "explain", "understand", "concept", "architecture",
                "design", "overview", "describe", "definition", "mean"]),
   ("error", ["error", "exception", "fail", "issue", "bug", "problem",
              "wrong", "fix", "debug", "handle", "catch"]),
   ("setup", ["setup", "install", "configure", "initialization", "start",
              "calibrate", "prepare", "connect", "setting", "configuration"]),
   ("vision", ["camera", "vision", "image", "video", "detect", "recognize",
               "see", "view", "capture", "stream", "visual"])]

/-- Python's `query.lower()` on the character list of the string, restricted to
its ASCII action (`Char.toLower` lower-cases exactly the ASCII uppercase range;
every configured keyword is ASCII). -/
def lowerChars (s : String) : List Char := s.data.map Char.toLower

/-- Python's `any(keyword in query for keyword in keywords)`: `keyword in query`
is substring containment, modelled as `List.IsInfix` on the character lists. -/
def kwMatch (q : List Char) (kws : List String) : Bool :=
  kws.any fun kw => decide (kw.data <:+: q)

/-- `detect_query_type` from `utils/rag_utils.py`: lower-case the query, then
return the first query type (in `QUERY_KEYWORDS` order) one of whose keywords
occurs in the query, falling back to `"default"`. -/
def detect_query_type (query : String) : String :=
  let q := lowerChars query
  match QUERY_KEYWORDS.find? (fun p => kwMatch q p.2) with
  | some p => p.1
  | none => "default"

/-- Spec-level statement that some keyword of `kws` occurs as a substring of the
lowered query. -/
def Matches (query : String) (kws : List String) : Prop :=
  ∃ kw ∈ kws, kw.data <:+: lowerChars query

instance (query : String) (kws : List String) : Decidable (Matches query kws) :=
  inferInstanceAs (Decidable (∃ kw ∈ kws, kw.data <:+: lowerChars query))

/-- `RAGConfig.COLLECTION_WEIGHTS` from `utils/config.py`, as the function
underlying Python dict indexing: `none` models the `KeyError` raised on a key
that is not present. -/
def COLLECTION_WEIGHTS (label : String) : Option (List (String × ℚ)) :=
  if label = "code" then
    some [("api_docs_functions", 1), ("api_docs_classes", 0.9),
          ("api_docs_modules", 0.7), ("reachy2_sdk", 0.9),
          ("vision_examples", 0.8), ("reachy2_tutorials", 0.8)]
  else if label = "concept" then
    some [("api_docs_modules", 1), ("api_docs_classes", 0.9),
          ("reachy2_tutorials", 0.9), ("reachy2_sdk", 0.8),
          ("vision_examples", 0.8), ("api_docs_functions", 0.7)]
  else if label = "error" then
    some [("api_docs_classes", 1), ("api_docs_functions", 0.9),
          ("api_docs_modules", 0.8), ("reachy2_sdk", 0.8),
          ("vision_examples", 0.8), ("reachy2_tutorials", 0.7)]
  else if label = "setup" then
    some [("api_docs_modules", 1), ("api_docs_classes", 0.9),
          ("reachy2_sdk", 0.9), ("vision_examples", 0.9),
          ("api_docs_functions", 0.8), ("reachy2_tutorials", 0.8)]
  else if label = "vision" then
    some [("vision_examples", 1), ("api_docs_modules", 0.9),
          ("api_docs_classes", 0.9), ("api_docs_functions", 0.8),
          ("reachy2_tutorials", 0.8), ("reachy2_sdk", 0.7)]
  else if label = "default" then
    some [("api_docs_functions", 1), ("api_docs_classes", 0.9),
          ("api_docs_modules", 0.9), ("reachy2_sdk", 0.8),
          ("vision_examples", 0.8), ("reachy2_tutorials", 0.8)]
  else none

/-- `RAGPipeline.get_collection_weights` from `utils/rag_utils.py`:
`config.rag_config.COLLECTION_WEIGHTS[detect_query_type(query)]`. -/
def get_collection_weights (query : String) : Option (List (String × ℚ)) :=
  COLLECTION_WEIGHTS (detect_query_type query)

/-- Ascending order on the weighted score, the key of
`all_results.sort(key=lambda x: x[1])` in `RAGPipeline.process_query`. -/
def byScore (a b : String × ℚ) : Prop := a.2 ≤ b.2

instance : DecidableRel byScore := fun a b => inferInstanceAs (Decidable (a.2 ≤ b.2))

instance : IsTotal (String × ℚ) byScore := ⟨fun a b => le_total a.2 b.2⟩

instance : IsTrans (String × ℚ) byScore := ⟨fun _ _ _ h1 h2 => le_trans h1 h2⟩

/-- Descending order on the blended score, the key of
`sorted(doc_scores, key=lambda x: x[1], reverse=True)` in `ReRanker.rerank`. -/
def byScoreDesc (a b : String × ℚ) : Prop := b.2 ≤ a.2

instance : DecidableRel byScoreDesc := fun a b => inferInstanceAs (Decidable (b.2 ≤ a.2))

instance : IsTotal (String × ℚ) byScoreDesc := ⟨fun a b => le_total b.2 a.2⟩

instance : IsTrans (String × ℚ) byScoreDesc := ⟨fun _ _ _ h1 h2 => le_trans h2 h1⟩

/-- The fan-out accumulation loop of `RAGPipeline.process_query` on per-collection
results that are already available: each configured collection contributes its
`(document, distance)` pairs, the document tagged `"[collection] "` and the
distance multiplied by the collection's weight, appended in configuration order. -/
def weightedResults (cols : List (String × List (String × ℚ) × ℚ)) : List (String × ℚ) :=
  cols.flatMap fun c => c.2.1.map fun dr => ("[" ++ c.1 ++ "] " ++ dr.1, dr.2 * c.2.2)

/-- Steps 3-4 of `RAGPipeline.process_query`: accumulate the weighted results,
sort ascending by weighted score (Python's stable `list.sort`), truncate to
`top_k`. -/
def mergeRank (cols : List (String × List (String × ℚ) × ℚ)) (top_k : Nat) :
    List (String × ℚ) :=
  (List.insertionSort byScore (weightedResults cols)).take top_k

/-- The fan-out loop of `RAGPipeline.process_query` with each collection's
`query_collection` outcome given as data: `Except.ok` carries the zipped
`(documents, distances)` lists, `Except.error` the raised exception's message.
The loop body runs inside the single `try` of `process_query`, so the first
exception aborts the whole loop and the partial accumulator is discarded. -/
def collectResults :
    List (String × Except String (List (String × ℚ)) × ℚ) →
    Except String (List (String × ℚ))
  | [] => .ok []
  | c :: rest =>
    match c.2.1 with
    | .error e => .error e
    | .ok rs =>
      match collectResults rest with
      | .error e => .error e
      | .ok tail =>
        .ok ((rs.map fun dr => ("[" ++ c.1 ++ "] " ++ dr.1, dr.2 * c.2.2)) ++ tail)

/-- The retrieval part of `RAGPipeline.process_query`: on success the ranked,
truncated context (the `selected_docs` handed to the generator), on a raised
exception the apologetic error string the `except` clause returns instead. -/
def processQueryContext
    (cols : List (String × Except String (List (String × ℚ)) × ℚ)) :
    Except String (List String) :=
  match collectResults cols with
  | .error e =>
    .error ("I apologize, but I encountered an error while processing your query: " ++ e)
  | .ok all =>
    .ok (((List.insertionSort byScore all).take TOP_K_CHUNKS).map Prod.fst)

/-- `ReRanker.rerank` from `utils/rag_utils.py`. The cross-encoder
`self.model.predict` is an opaque per-pair scoring function `ce`; `zip` truncates
to the shortest of `documents`, `cross_scores` and `scores`, the blend is
`cross_score * 0.7 + orig_score * 0.3`, sorting is Python's stable `sorted` with
`reverse=True`, and the result is cut to `self.top_k = RERANK_TOP_K`. -/
def rerank (ce : String → String → ℚ) (query : String)
    (documents : List String) (scores : List ℚ) : List (String × ℚ) :=
  let cross_scores := documents.map fun doc => ce query doc
  let doc_scores := (documents.zip (cross_scores.zip scores)).map
    fun x => (x.1, x.2.1 * 0.7 + x.2.2 * 0.3)
  (List.insertionSort byScoreDesc doc_scores).take RERANK_TOP_K

/-- `VectorStore.COLLECTION_INSTRUCTIONS` of `src/utils/db_utils.py` (src
layout), as the total function underlying `dict.get(key, "")`. -/
def srcCollectionInstruction (c : String) : String :=
  if c = "api_docs_functions" then
    "Represent this OFFICIAL API function documentation for the Reachy2 SDK.\nThis collection contains standalone functions with their signatures, documentation, and implementations.\nUse these functions for actual implementation as they are guaranteed to be part of the public API."
  else if c = "api_docs_classes" then
    "Represent this OFFICIAL API class documentation for the Reachy2 SDK.\nThis collection contains two types of chunks:\n1. Class overviews with class docstrings and method summaries\n2. Individual method documentation with signatures and implementations\nUse these classes and methods for actual implementation as they are guaranteed to be part of the public API."
  else if c = "api_docs_modules" then
    "Represent this OFFICIAL module documentation for the Reachy2 SDK.\nThis collection contains high-level module documentation and organization information.\nUse this to understand the SDK\x27s structure and module purposes."
  else if c = "reachy2_tutorials" then
    "Represent this tutorial content which contains example code and explanations.\nEach chunk contains either tutorial explanations or complete working code examples.\nNote: While tutorials demonstrate usage patterns, they may contain custom helper functions.\nAlways verify methods against the official API documentation."
  else if c = "reachy2_sdk" then
    "Represent this SDK example code and implementation patterns.\nEach chunk contains complete, working examples showing how to use the SDK.\nNote: While examples show implementation patterns, always verify methods against the API documentation."
  else if c = "vision_examples" then
    "Represent this Vision module example code and documentation.\nEach chunk contains complete examples of using the vision system and cameras.\nNote: These examples demonstrate vision-specific functionality and camera integration."
  else ""

/-- Ingestion-side text of `VectorStore.add_documents` in `src/utils/db_utils.py`:
`f"{instruction}:\n{text}"` when the collection has an instruction (Python's
truthiness test on the string), the raw text otherwise. -/
def srcAddText (c t : String) : String :=
  let instruction := srcCollectionInstruction c
  if instruction = "" then t else instruction ++ ":\n" ++ t

/-- Query-side text of `VectorStore.query_collection` in `src/utils/db_utils.py`:
`f"{instruction}\n\nQuery for relevant information from this source: {text}"`
when the collection has an instruction. -/
def srcQueryText (c t : String) : String :=
  let instruction := srcCollectionInstruction c
  if instruction = "" then t
  else instruction ++ "\n\nQuery for relevant information from this source: " ++ t

/-- `VectorStore.COLLECTION_INSTRUCTIONS` of the legacy `utils/db_utils.py`. -/
def legacyDbInstruction (c : String) : String :=
  if c = "api_docs_functions" then
    "Represent this function documentation for retrieving relevant Python API methods and functions"
  else if c = "api_docs_classes" then
    "Represent this class documentation for retrieving relevant Python classes and their capabilities"
  else if c = "reachy2_tutorials" then
    "Represent this tutorial content for retrieving relevant robot programming examples and explanations"
  else if c = "reachy2_sdk" then
    "Represent this SDK documentation for retrieving relevant robot control and programming information"
  else ""

/-- Ingestion-side text of `VectorStore.add_documents` in the legacy
`utils/db_utils.py`: `f"{instruction}:\n{text}"` when the collection has an
instruction. -/
def legacyDbAddText (c t : String) : String :=
  let instruction := legacyDbInstruction c
  if instruction = "" then t else instruction ++ ":\n" ++ t

/-- `VectorStore.COLLECTION_INSTRUCTIONS` of the `VectorStore` class defined at
the bottom of `utils/rag_utils.py` — the class `RAGPipeline` resolves at run
time, whose `query_collection` serves the pipeline's fan-out. -/
def ragVSInstruction (c : String) : String :=
  if c = "api_docs_functions" then
    "Represent this function documentation for retrieving relevant Python API methods and functions"
  else if c = "api_docs_classes" then
    "Represent this class documentation for retrieving relevant Python classes and their capabilities"
  else if c = "reachy2_tutorials" then
    "Represent this tutorial content for retrieving relevant robot programming examples and explanations"
  else if c = "reachy2_sdk" then
    "Represent this SDK documentation for retrieving relevant robot control and programming information"
  else if c = "reachy2_docs" then
    "Represent this documentation for retrieving relevant information about Reachy 2\x27s features, capabilities, and usage"
  else ""

/-- Query-side text of `VectorStore.query_collection` in `utils/rag_utils.py`:
`f"{instruction}:\n{text}"` when the collection has an instruction. -/
def ragVSQueryText (c t : String) : String :=
  let instruction := ragVSInstruction c
  if instruction = "" then t else instruction ++ ":\n" ++ t

/-- Python's `range(i, end, step)` slicing loop `texts[i:i+step]`, fuelled so that
the recursion is structural (the fuel is the list length, which always
suffices when `step ≥ 1`). -/
def chunksGo (step : Nat) : Nat → List String → List (List String)
  | _, [] => []
  | 0, _ :: _ => []
  | fuel + 1, t :: ts => (t :: ts).take step :: chunksGo step fuel ((t :: ts).drop step)

/-- The successive slices `texts[i:i+step]` for `i in range(0, len(texts), step)`. -/
def pyChunks (step : Nat) (ts : List String) : List (List String) :=
  chunksGo step ts.length ts

/-- The retry loop of `add_documents` in `src/utils/db_utils.py`: each
`RETRY_BATCH_SIZE = 50` slice of the failed batch is added; a slice whose
`collection.add` raises (oracle `fails` returns `some e`) re-raises `e`,
aborting the whole call. On success the performed store calls are returned. -/
def processRetries (fails : List String → Option String) :
    List (List String) → Except String (List (List String))
  | [] => .ok []
  | b :: bs =>
    match fails b with
    | some e => .error e
    | none => (processRetries fails bs).map (b :: ·)

/-- The `BATCH_SIZE = 100` loop of `add_documents` in `src/utils/db_utils.py`:
each batch is added with one `collection.add` call; if that call raises, the
batch is re-added in `RETRY_BATCH_SIZE = 50` slices. Returns the list of
successful store-call payloads, or the re-raised error. -/
def processBatches (fails : List String → Option String) :
    List (List String) → Except String (List (List String))
  | [] => .ok []
  | b :: bs =>
    match fails b with
    | some _ =>
      match processRetries fails (pyChunks 50 b) with
      | .error e => .error e
      | .ok calls => (processBatches fails bs).map (calls ++ ·)
    | none => (processBatches fails bs).map (b :: ·)

/-- `VectorStore.add_documents` of `src/utils/db_utils.py`, abstracted over the
outcome of the underlying `collection.add` calls (`fails` returns `some e` when
the store raises `e` on that payload): prefix every text with the collection
instruction, then run the batched add loop. The value is the list of payloads
of the successful store calls, in order. -/
def srcAddDocuments (fails : List String → Option String) (c : String)
    (texts : List String) : Except String (List (List String)) :=
  processBatches fails (pyChunks 100 (texts.map (srcAddText c)))

/-- `VectorStore.add_documents` of the legacy `utils/db_utils.py`: the prefixed
texts are handed to a single `collection.add` call, with no batching and no
retry. The value is the list of store-call payloads. -/
def legacyAddCalls (c : String) (texts : List String) : List (List String) :=
  [texts.map (legacyDbAddText c)]

/-- A chroma collection as the dimension check observes it: the dimensionality
of its stored index and its stored documents. -/
structure Collection where
  dim : Nat
  docs : List String
deriving DecidableEq, Repr

/-- The chroma client's collections, keyed by name. -/
def lookupStore (store : List (String × Collection)) (name : String) :
    Option Collection :=
  (store.find? fun p => p.1 = name).map (·.2)

/-- Replace the named collection's contents. -/
def updateStore (store : List (String × Collection)) (name : String)
    (c : Collection) : List (String × Collection) :=
  store.map fun p => if p.1 = name then (name, c) else p

/-- `VectorStore.get_collection_with_dimension_check` of both
`utils/db_utils.py` and `src/utils/db_utils.py`, over a model of chromadb:

* `client.get_collection(name=name)` is called WITHOUT an embedding function, so
  chroma attaches its default embedding function, whose output dimensionality is
  `defaultDim` (384 for the packaged all-MiniLM-L6-v2);
* the probe `collection.query(query_texts=["test"], n_results=1)` embeds the
  dummy text with that attached function and raises
  `InvalidDimensionException` exactly when its output dimensionality differs
  from the collection's index dimensionality;
* `expected_dim = len(embedding_function(["test"])[0])` — that is, `efDim` — is
  computed in the source but never used afterwards;
* on `InvalidDimensionException` the collection is deleted and recreated empty
  with `embedding_function`, so its index dimensionality becomes `efDim`;
* a missing collection (`InvalidCollectionException`) is created fresh.

The value is the updated store and the returned collection. -/
def getCollectionWithDimensionCheck (defaultDim : Nat)
    (store : List (String × Collection)) (name : String) (efDim : Nat) :
    List (String × Collection) × Collection :=
  match lookupStore store name with
  | some c =>
    if defaultDim = c.dim then (store, c)
    else (updateStore store name ⟨efDim, []⟩, ⟨efDim, []⟩)
  | none => (store ++ [(name, ⟨efDim, []⟩)], ⟨efDim, []⟩)

/-!  Helper lemmas (shared between claims; none of them is a claim's theorem). -/

/-- Unfolding equation for `detect_query_type`. -/
theorem detect_query_type_eq (query : String) :
    detect_query_type query =
      match QUERY_KEYWORDS.find? (fun p => kwMatch (lowerChars query) p.2) with
      | some p => p.1
      | none => "default" := rfl

/-- The Bool-level keyword test agrees with the spec-level `Matches`. -/
theorem kwMatch_iff (query : String) (kws : List String) :
    kwMatch (lowerChars query) kws = true ↔ Matches query kws := by
  simp [kwMatch, Matches]

/-- `find?` returns the first element satisfying the predicate. -/
theorem find?_eq_of_first {α : Type} (p : α → Bool) :
    ∀ (l : List α) (i : Nat) (h : i < l.length), p (l.get ⟨i, h⟩) = true →
      (∀ j (hj : j < i), p (l.get ⟨j, Nat.lt_trans hj h⟩) = false) →
      l.find? p = some (l.get ⟨i, h⟩)
  | a :: l, 0, _, hp, _ => by simp [List.find?, show p a = true from hp]
  | a :: l, i + 1, h, hp, hprev => by
    have ha : p a = false := hprev 0 (Nat.succ_pos i)
    have := find?_eq_of_first p l i (Nat.lt_of_succ_lt_succ h) hp
      (fun j hj => hprev (j + 1) (Nat.succ_lt_succ hj))
    simpa [List.find?, ha] using this

/-- The classifier only produces configured labels. -/
theorem detect_mem_labels (query : String) :
    detect_query_type query ∈
      ["code", "concept", "error", "setup", "vision", "default"] := by
  rw [detect_query_type_eq]
  cases hf : QUERY_KEYWORDS.find? (fun p => kwMatch (lowerChars query) p.2) with
  | none => simp
  | some p =>
    have hmem : p ∈ QUERY_KEYWORDS := List.mem_of_find?_eq_some hf
    have hall : ∀ r ∈ QUERY_KEYWORDS,
        r.1 ∈ ["code", "concept", "error", "setup", "vision", "default"] := by decide
    simpa using hall p hmem

/-- A list sorted by weighted score is determined by its multiset of entries as
soon as the scores are pairwise distinct. -/
theorem sortedByScore_unique {l₁ l₂ : List (String × ℚ)} (hp : l₁.Perm l₂)
    (hs₁ : l₁.Pairwise byScore) (hs₂ : l₂.Pairwise byScore)
    (hd : (l₁.map Prod.snd).Nodup) : l₁ = l₂ := by
  haveI : IsAntisymm (String × ℚ) (fun a b => a.2 < b.2 ∨ a = b) := by
    constructor
    rintro a b (h1 | h1) (h2 | h2)
    · exact absurd h2 (lt_asymm h1)
    · exact h2.symm
    · exact h1
    · exact h1
  have hd₂ : (l₂.map Prod.snd).Nodup := ((hp.map Prod.snd).nodup_iff).mp hd
  have hne₁ : l₁.Pairwise fun a b => a.2 ≠ b.2 := List.pairwise_map.mp hd
  have hne₂ : l₂.Pairwise fun a b => a.2 ≠ b.2 := List.pairwise_map.mp hd₂
  have hlt₁ : l₁.Pairwise fun a b : String × ℚ => a.2 < b.2 ∨ a = b :=
    (hs₁.and hne₁).imp fun h => Or.inl (lt_of_le_of_ne h.1 h.2)
  have hlt₂ : l₂.Pairwise fun a b : String × ℚ => a.2 < b.2 ∨ a = b :=
    (hs₂.and hne₂).imp fun h => Or.inl (lt_of_le_of_ne h.1 h.2)
  exact List.eq_of_perm_of_sorted hp hlt₁ hlt₂

/-- The fan-out accumulator succeeds exactly when every collection's query
succeeded. -/
theorem collectResults_ok_iff :
    ∀ cols : List (String × Except String (List (String × ℚ)) × ℚ),
      (∃ l, collectResults cols = .ok l) ↔ ∀ c ∈ cols, ∃ rs, c.2.1 = .ok rs
  | [] => by simp [collectResults]
  | c :: rest => by
    cases hres : c.2.1 with
    | error e => simp [collectResults, hres]
    | ok rs =>
      cases htail : collectResults rest with
      | error e =>
        have := (collectResults_ok_iff rest).not
        simp only [htail] at this
        simp only [collectResults, hres, htail]
        constructor
        · rintro ⟨l, h⟩; cases h
        · intro h
          exact absurd (fun d hd => h d (List.mem_cons_of_mem c hd))
            (by simpa using this.mp (by simp))
      | ok tail =>
        have hrest : ∀ d ∈ rest, ∃ rs, d.2.1 = .ok rs :=
          (collectResults_ok_iff rest).mp ⟨tail, htail⟩
        simp only [collectResults, hres, htail]
        constructor
        · rintro - d hd
          rcases List.mem_cons.mp hd with h | h
          · subst h; exact ⟨rs, hres⟩
          · exact hrest d h
        · intro _; exact ⟨_, rfl⟩

/-- An element of `ds.zip ((ds.map f).zip ss)` carries `f` of its first
component in the middle, and projects to an element of `ds.zip ss`. -/
theorem zip_map_mid {α β γ : Type} (f : α → β) :
    ∀ (ds : List α) (ss : List γ) (x : α × β × γ),
      x ∈ ds.zip ((ds.map f).zip ss) → x.2.1 = f x.1 ∧ (x.1, x.2.2) ∈ ds.zip ss
  | [], _, x, hx => by simp at hx
  | _ :: _, [], x, hx => by simp at hx
  | d :: ds, s :: ss, x, hx => by
    rcases List.mem_cons.mp hx with h | h
    · subst h; simp
    · have := zip_map_mid f ds ss x h
      exact ⟨this.1, List.mem_cons_of_mem _ this.2⟩

/-- `zip` only consumes the common prefix of the zipped lists. -/
theorem zip_map_take {α β γ : Type} (f : α → β) :
    ∀ (ds : List α) (ss : List γ),
      ds.zip ((ds.map f).zip ss)
        = (ds.take (min ds.length ss.length)).zip
            (((ds.take (min ds.length ss.length)).map f).zip
              (ss.take (min ds.length ss.length)))
  | [], ss => by simp
  | d :: ds, [] => by simp
  | d :: ds, s :: ss => by
    have ih := zip_map_take f ds ss
    simp only [List.length_cons, Nat.succ_min_succ, List.take_succ_cons,
      List.map_cons, List.zip_cons_cons]
    exact congrArg _ ih

/-- The slicing loop visits the whole list: the concatenation of the slices is
the original list (given enough fuel and a positive step). -/
theorem chunksGo_flatten (step : Nat) (hs : 1 ≤ step) :
    ∀ (fuel : Nat) (ts : List String), ts.length ≤ fuel →
      (chunksGo step fuel ts).flatten = ts
  | _, [], _ => by simp [chunksGo]
  | 0, t :: ts, h => by simp at h
  | fuel + 1, t :: ts, h => by
    have hlen : ((t :: ts).drop step).length ≤ fuel := by
      simp only [List.length_cons] at h
      simp only [List.length_drop, List.length_cons]
      omega
    simp only [chunksGo, List.flatten_cons, chunksGo_flatten step hs fuel _ hlen,
      List.take_append_drop]

/-- Every slice produced by the slicing loop has length at most the step. -/
theorem chunksGo_sizes (step : Nat) :
    ∀ (fuel : Nat) (ts : List String), ∀ b ∈ chunksGo step fuel ts, b.length ≤ step
  | _, [], b, hb => by simp [chunksGo] at hb
  | 0, t :: ts, b, hb => by simp [chunksGo] at hb
  | fuel + 1, t :: ts, b, hb => by
    simp only [chunksGo, List.mem_cons] at hb
    rcases hb with h | h
    · subst h; simp
    · exact chunksGo_sizes step fuel _ b h

/-- A successful retry pass performed exactly the given store calls. -/
theorem processRetries_ok (fails : List String → Option String) :
    ∀ (bs : List (List String)) (calls : List (List String)),
      processRetries fails bs = .ok calls → calls = bs
  | [], calls, h => by simpa [processRetries] using h.symm
  | b :: bs, calls, h => by
    cases hf : fails b with
    | some e => simp [processRetries, hf] at h
    | none =>
      cases hrec : processRetries fails bs with
      | error e => simp [processRetries, hf, hrec, Except.map] at h
      | ok tail =>
        simp only [processRetries, hf, hrec, Except.map] at h
        cases h
        simp [processRetries_ok fails bs tail hrec]

/-- A successful batched add persists exactly the input documents, in payloads
of at most 100 documents each (retried slices have at most 50). -/
theorem processBatches_ok (fails : List String → Option String) :
    ∀ (bs : List (List String)) (calls : List (List String)),
      processBatches fails bs = .ok calls → (∀ b ∈ bs, b.length ≤ 100) →
      calls.flatten = bs.flatten ∧ ∀ cl ∈ calls, cl.length ≤ 100
  | [], calls, h, _ => by
    simp only [processBatches] at h
    cases h
    simp
  | b :: bs, calls, h, hsz => by
    have hsz' : ∀ x ∈ bs, x.length ≤ 100 := fun x hx => hsz x (List.mem_cons_of_mem b hx)
    cases hf : fails b with
    | none =>
      cases hrec : processBatches fails bs with
      | error e => simp [processBatches, hf, hrec, Except.map] at h
      | ok tail =>
        simp only [processBatches, hf, hrec, Except.map] at h
        cases h
        have ih := processBatches_ok fails bs tail hrec hsz'
        refine ⟨by simp [ih.1], ?_⟩
        intro cl hcl
        rcases List.mem_cons.mp hcl with h | h
        · exact h ▸ hsz b (List.mem_cons_self b bs)
        · exact ih.2 cl h
    | some e =>
      cases hretry : processRetries fails (pyChunks 50 b) with
      | error e' => simp [processBatches, hf, hretry] at h
      | ok calls1 =>
        cases hrec : processBatches fails bs with
        | error e' => simp [processBatches, hf, hretry, hrec, Except.map] at h
        | ok tail =>
          simp only [processBatches, hf, hretry, hrec, Except.map] at h
          cases h
          have hcalls1 : calls1 = pyChunks 50 b :=
            processRetries_ok fails _ _ hretry
          have hflat : calls1.flatten = b := by
            rw [hcalls1]
            exact chunksGo_flatten 50 (by omega) b.length b (Nat.le_refl _)
          have hsizes : ∀ cl ∈ calls1, cl.length ≤ 50 := by
            rw [hcalls1]; exact fun cl hcl => chunksGo_sizes 50 b.length b cl hcl
          have ih := processBatches_ok fails bs tail hrec hsz'
          refine ⟨by simp [ih.1, hflat], ?_⟩
          intro cl hcl
          rcases List.mem_append.mp hcl with h | h
          · exact Nat.le_trans (hsizes cl h) (by omega)
          · exact ih.2 cl h

/-- The legacy and the pipeline instruction tables agree away from
`"reachy2_docs"`. -/
theorem legacy_rag_instruction_eq (c : String) (hc : c ≠ "reachy2_docs") :
    legacyDbInstruction c = ragVSInstruction c := by
  simp only [legacyDbInstruction, ragVSInstruction]
  split_ifs <;> simp_all

/-!  The claims. -/

/-- Claim C1, counterexample: with two configured collections of which only the
second raises (an `EmbeddingError`), `process_query` does not return a ranked
list built from the surviving collection — the single `try` around the fan-out
loop turns the first per-collection exception into the apologetic error
return. -/
theorem claim_C1_counterexample :
    processQueryContext
        [("api_docs_functions", Except.ok [("doc1", (1 : ℚ) / 2)], 1),
         ("api_docs_classes", Except.error "EmbeddingError", 0.9)]
      = Except.error
          "I apologize, but I encountered an error while processing your query: EmbeddingError" := by
  rfl

/-- Claim C1, amended: the retrieval in `process_query` returns a ranked context
exactly when EVERY configured collection's query succeeds; a single
per-collection exception aborts the whole fan-out (partial results are
discarded) and the call returns the apologetic error message instead. -/
theorem claim_C1_amended
    (cols : List (String × Except String (List (String × ℚ)) × ℚ)) :
    (∃ l, processQueryContext cols = .ok l) ↔ ∀ c ∈ cols, ∃ rs, c.2.1 = .ok rs := by
  constructor
  · rintro ⟨l, hl⟩
    cases hcr : collectResults cols with
    | error e =>
      simp only [processQueryContext, hcr] at hl
      cases hl
    | ok all => exact (collectResults_ok_iff cols).mp ⟨all, hcr⟩
  · intro h
    obtain ⟨all, hall⟩ := (collectResults_ok_iff cols).mpr h
    exact ⟨((List.insertionSort byScore all).take TOP_K_CHUNKS).map Prod.fst,
      by simp only [processQueryContext, hall]⟩

/-- Claim C1, witness: a fan-out in which every collection succeeds produces a
ranked context. -/
theorem claim_C1_witness :
    ∃ l, processQueryContext [("a", Except.ok [("d", (1 : ℚ))], 1)] = Except.ok l :=
  (claim_C1_amended _).mpr (by
    intro c hc
    simp only [List.mem_singleton] at hc
    subst hc
    exact ⟨_, rfl⟩)

set_option maxRecDepth 8192 in
/-- Claim C2, counterexample: in `src/utils/db_utils.py` the prefix that
`add_documents` puts before a document of `reachy2_sdk` is NOT
character-for-character the prefix `query_collection` puts before a query for
that collection — the instruction string is the same but the joining format
differs (`":\n"` at ingestion, `"\n\nQuery for relevant information from this
source: "` at query time). -/
theorem claim_C2_counterexample :
    srcAddText "reachy2_sdk" "x" ≠ srcQueryText "reachy2_sdk" "x" := by
  decide

/-- Claim C2, amended: ingestion- and query-side prefixes draw the instruction
for a collection from the same table within each store, but in the src-layout
store the joining formats differ, so the character-for-character identity only
holds between the legacy ingestion path (`utils/db_utils.py` `add_documents`)
and the pipeline's query path (`utils/rag_utils.py` `query_collection`), and
there for every collection except `"reachy2_docs"` (which has a query-side
instruction but no ingestion-side one). -/
theorem claim_C2_amended (c t : String) (hc : c ≠ "reachy2_docs") :
    legacyDbAddText c t = ragVSQueryText c t := by
  simp only [legacyDbAddText, ragVSQueryText, legacy_rag_instruction_eq c hc]

/-- Claim C2, witness: the legacy ingestion prefix and the pipeline query prefix
coincide on `reachy2_sdk`. -/
theorem claim_C2_witness :
    legacyDbAddText "reachy2_sdk" "x" = ragVSQueryText "reachy2_sdk" "x" :=
  claim_C2_amended "reachy2_sdk" "x" (by decide)

/-- Claim C3, counterexample: for a label outside the configured profile set the
weight lookup `COLLECTION_WEIGHTS[label]` raises a `KeyError` (modelled:
`none`); in particular it does not return the `"default"` profile's table. -/
theorem claim_C3_counterexample :
    COLLECTION_WEIGHTS "unknown_query_type" = none ∧
      COLLECTION_WEIGHTS "unknown_query_type" ≠ COLLECTION_WEIGHTS "default" := by
  decide

/-- Claim C3, amended: the raw dict lookup raises on unknown labels, but the
composed `get_collection_weights` never raises, because `detect_query_type`
only produces labels present in `COLLECTION_WEIGHTS` (with `"default"` as the
no-keyword fallback). -/
theorem claim_C3_amended (query : String) :
    (get_collection_weights query).isSome = true := by
  have h := detect_mem_labels query
  unfold get_collection_weights
  simp only [List.mem_cons, List.mem_singleton, List.not_mem_nil, or_false] at h
  rcases h with h | h | h | h | h | h <;> rw [h] <;> decide

/-- Claim C4: for every family of per-collection `(document, distance)` results
with weights, the merged context scores each document as `distance * weight` of
its source collection, is sorted ascending by that effective score, and has at
most `TOP_K_CHUNKS` entries. -/
theorem claim_C4_merge (cols : List (String × List (String × ℚ) × ℚ)) :
    (mergeRank cols TOP_K_CHUNKS).Pairwise byScore
    ∧ (mergeRank cols TOP_K_CHUNKS).length ≤ TOP_K_CHUNKS
    ∧ ∀ p ∈ mergeRank cols TOP_K_CHUNKS, ∃ col ∈ cols, ∃ dr ∈ col.2.1,
        p = ("[" ++ col.1 ++ "] " ++ dr.1, dr.2 * col.2.2) := by
  refine ⟨?_, ?_, ?_⟩
  · exact List.Pairwise.sublist (List.take_sublist _ _)
      (List.sorted_insertionSort byScore (weightedResults cols))
  · simp only [mergeRank, List.length_take]
    exact Nat.min_le_left _ _
  · intro p hp
    have hp1 : p ∈ List.insertionSort byScore (weightedResults cols) :=
      List.mem_of_mem_take hp
    have hp2 : p ∈ weightedResults cols :=
      (List.perm_insertionSort byScore _).mem_iff.mp hp1
    simp only [weightedResults, List.mem_flatMap, List.mem_map] at hp2
    obtain ⟨c, hc, dr, hdr, heq⟩ := hp2
    exact ⟨c, hc, dr, hdr, heq.symm⟩

/-- Claim C5: the classifier always produces a configured label, sends the empty
query to `"default"`, returns `"default"` when no profile's keyword occurs in
the lowered query, and otherwise returns the label of the FIRST profile (in the
configured `code, concept, error, setup, vision` order) with an occurring
keyword. Determinism is immediate: `detect_query_type` is a function of the
query alone. -/
theorem claim_C5_classifier :
    (∀ q, detect_query_type q ∈ ["code", "concept", "error", "setup", "vision", "default"])
    ∧ detect_query_type "" = "default"
    ∧ (∀ q, (∀ p ∈ QUERY_KEYWORDS, ¬ Matches q p.2) → detect_query_type q = "default")
    ∧ ∀ (q : String) (i : Nat) (h : i < QUERY_KEYWORDS.length),
        Matches q (QUERY_KEYWORDS.get ⟨i, h⟩).2 →
        (∀ j (hj : j < i), ¬ Matches q (QUERY_KEYWORDS.get ⟨j, Nat.lt_trans hj h⟩).2) →
        detect_query_type q = (QUERY_KEYWORDS.get ⟨i, h⟩).1 := by
  refine ⟨detect_mem_labels, by decide, ?_, ?_⟩
  · intro q hnone
    rw [detect_query_type_eq]
    have hfind : QUERY_KEYWORDS.find? (fun p => kwMatch (lowerChars q) p.2) = none := by
      rw [List.find?_eq_none]
      intro p hp hkm
      exact hnone p hp ((kwMatch_iff q p.2).mp hkm)
    rw [hfind]
  · intro q i h hm hprev
    rw [detect_query_type_eq,
      find?_eq_of_first (fun p => kwMatch (lowerChars q) p.2) QUERY_KEYWORDS i h
        ((kwMatch_iff q _).mpr hm)
        (fun j hj => by
          cases hb : kwMatch (lowerChars q) (QUERY_KEYWORDS.get ⟨j, Nat.lt_trans hj h⟩).2 with
          | false => exact hb
          | true => exact absurd ((kwMatch_iff q _).mp hb) (hprev j hj))]

/-- Claim C5, witness: a query containing the first profile's keyword
`"how to"` is classified `"code"`. -/
theorem claim_C5_witness : detect_query_type "how to wave the arm" = "code" :=
  claim_C5_classifier.2.2.2 "how to wave the arm" 0 (by decide) (by decide)
    (fun j hj => absurd hj (Nat.not_lt_zero j))

/-- Claim C6: `rerank` blends each document's cross-encoder score with its
original score as `0.7 * cross + 0.3 * original`, returns the pairs sorted
descending by the blended score and truncated to `RERANK_TOP_K`; on
`["a", "b"]` with original scores `[0.9, 0.1]` and cross-encoder scores
`[0.2, 0.8]`, `"b"` (blend 0.59) outranks `"a"` (blend 0.41). -/
theorem claim_C6_rerank :
    (∀ (ce : String → String → ℚ) (q : String) (docs : List String) (scores : List ℚ),
        docs.length = scores.length →
        (rerank ce q docs scores).Pairwise byScoreDesc
        ∧ (rerank ce q docs scores).length ≤ RERANK_TOP_K
        ∧ ∀ p ∈ rerank ce q docs scores, ∃ ds ∈ docs.zip scores,
            p = (ds.1, ce q ds.1 * 0.7 + ds.2 * 0.3))
    ∧ rerank (fun _ d => if d = "a" then 0.2 else 0.8) "q" ["a", "b"] [0.9, 0.1]
        = [("b", 0.59), ("a", 0.41)] := by
  constructor
  · intro ce q docs scores _
    refine ⟨?_, ?_, ?_⟩
    · exact List.Pairwise.sublist (List.take_sublist _ _)
        (List.sorted_insertionSort byScoreDesc _)
    · simp only [rerank, List.length_take]
      exact Nat.min_le_left _ _
    · intro p hp
      simp only [rerank] at hp
      have hp1 := List.mem_of_mem_take hp
      have hp2 := (List.perm_insertionSort byScoreDesc _).mem_iff.mp hp1
      simp only [List.mem_map] at hp2
      obtain ⟨x, hx, heq⟩ := hp2
      have hm := zip_map_mid (fun doc => ce q doc) docs scores x hx
      exact ⟨(x.1, x.2.2), hm.2, by rw [← heq, hm.1]⟩
  · have hb : ("b" : String) ≠ "a" := by decide
    norm_num [rerank, RERANK_TOP_K, List.insertionSort, List.orderedInsert, byScoreDesc, hb]

/-- Claim C6, witness: the reranked list is no longer than `RERANK_TOP_K`. -/
theorem claim_C6_witness :
    (rerank (fun _ d => if d = "a" then 0.2 else 0.8) "q" ["a", "b"] [0.9, 0.1]).length
      ≤ RERANK_TOP_K :=
  (claim_C6_rerank.1 _ "q" ["a", "b"] [0.9, 0.1] (by decide)).2.1

/-- Claim C7, counterexample: two collections whose single results tie exactly
on effective score. Swapping the processing order swaps the tied entries in the
final context (Python's `list.sort` is stable, so ties keep insertion order),
hence the merged output is NOT identical under every permutation of the
fan-out order. -/
theorem claim_C7_counterexample :
    ([("a", [("d", (1 : ℚ))], 1), ("b", [("e", (1 : ℚ))], 1)] :
        List (String × List (String × ℚ) × ℚ)).Perm
        [("b", [("e", (1 : ℚ))], 1), ("a", [("d", (1 : ℚ))], 1)]
    ∧ mergeRank [("a", [("d", (1 : ℚ))], 1), ("b", [("e", (1 : ℚ))], 1)] TOP_K_CHUNKS
        ≠ mergeRank [("b", [("e", (1 : ℚ))], 1), ("a", [("d", (1 : ℚ))], 1)] TOP_K_CHUNKS := by
  constructor
  · exact List.Perm.swap _ _ _
  · norm_num [mergeRank, weightedResults, TOP_K_CHUNKS, List.insertionSort,
      List.orderedInsert, byScore]
    decide

/-- Claim C7, amended: the merged, sorted and truncated context is invariant
under permutations of the fan-out processing order whenever the effective
scores are pairwise distinct; with exact ties only the multiset is preserved,
the order of the tied entries following the processing order. -/
theorem claim_C7_amended (cols₁ cols₂ : List (String × List (String × ℚ) × ℚ))
    (k : Nat) (hp : cols₁.Perm cols₂)
    (hd : ((weightedResults cols₁).map Prod.snd).Nodup) :
    mergeRank cols₁ k = mergeRank cols₂ k := by
  have hw : (weightedResults cols₁).Perm (weightedResults cols₂) :=
    hp.flatMap_right _
  have hperm : (List.insertionSort byScore (weightedResults cols₁)).Perm
      (List.insertionSort byScore (weightedResults cols₂)) :=
    (List.perm_insertionSort byScore _).trans
      (hw.trans (List.perm_insertionSort byScore _).symm)
  have hd1 : ((List.insertionSort byScore (weightedResults cols₁)).map Prod.snd).Nodup :=
    (((List.perm_insertionSort byScore _).map Prod.snd).nodup_iff).mpr hd
  have hsorted := sortedByScore_unique hperm
    (List.sorted_insertionSort byScore (weightedResults cols₁))
    (List.sorted_insertionSort byScore (weightedResults cols₂)) hd1
  simp only [mergeRank, hsorted]

/-- Claim C7, witness: with distinct effective scores, swapping the fan-out
order leaves the merged context unchanged. -/
theorem claim_C7_witness :
    mergeRank [("a", [("d", (1 : ℚ))], 1), ("b", [("e", (2 : ℚ))], 1)] TOP_K_CHUNKS
      = mergeRank [("b", [("e", (2 : ℚ))], 1), ("a", [("d", (1 : ℚ))], 1)] TOP_K_CHUNKS :=
  claim_C7_amended _ _ TOP_K_CHUNKS (List.Perm.swap _ _ _)
    (by norm_num [weightedResults])

/-- Claim C8, counterexample: the legacy `add_documents` of `utils/db_utils.py`
hands all 150 documents to a single `collection.add` call — there is no
batching bound of 100 and no retry there. -/
theorem claim_C8_counterexample :
    legacyAddCalls "other_collection" (List.replicate 150 "t")
        = [List.replicate 150 "t"]
    ∧ 100 < (List.replicate 150 "t").length := by
  constructor
  · simp [legacyAddCalls, legacyDbAddText, legacyDbInstruction, List.map_replicate]
  · simp

/-- Claim C8, amended: the src-layout `add_documents`
(`src/utils/db_utils.py`) persists in store calls of at most 100 documents,
retrying a failed batch in slices of at most 50 (re-raising if a slice also
fails, which aborts the call); whenever the call returns, the successful store
calls cover exactly the instruction-prefixed input texts in order. The legacy
`utils/db_utils.py` `add_documents` has no batching or retry at all. -/
theorem claim_C8_amended (fails : List String → Option String) (c : String)
    (texts : List String) (calls : List (List String))
    (h : srcAddDocuments fails c texts = .ok calls) :
    calls.flatten = texts.map (srcAddText c) ∧ ∀ b ∈ calls, b.length ≤ 100 := by
  have hsz : ∀ b ∈ pyChunks 100 (texts.map (srcAddText c)), b.length ≤ 100 :=
    fun b hb => chunksGo_sizes 100 _ _ b hb
  have hok := processBatches_ok fails _ calls h hsz
  refine ⟨?_, hok.2⟩
  rw [hok.1]
  exact chunksGo_flatten 100 (by omega) _ _ (Nat.le_refl _)

set_option maxRecDepth 100000 in
/-- Claim C8, witness: 150 documents on a store that rejects 100-document
payloads are persisted as three 50-document calls (one failed 100-batch retried
as two 50-slices, then the final 50-batch), covering all inputs. -/
theorem claim_C8_witness :
    ([List.replicate 50 "t", List.replicate 50 "t", List.replicate 50 "t"] :
        List (List String)).flatten
        = (List.replicate 150 "t").map (srcAddText "other_collection")
    ∧ ∀ b ∈ ([List.replicate 50 "t", List.replicate 50 "t", List.replicate 50 "t"] :
        List (List String)), b.length ≤ 100 :=
  claim_C8_amended (fun b => if b.length = 100 then some "boom" else none)
    "other_collection" (List.replicate 150 "t")
    [List.replicate 50 "t", List.replicate 50 "t", List.replicate 50 "t"] (by rfl)

/-- Claim C9: the dimension check's probe query runs through the embedding
function attached by `get_collection(name=name)` — chroma's DEFAULT embedding
function, since none is passed — not through the `embedding_function` argument
(whose probed `expected_dim` the source computes and never uses). Hence the
collection is recreated (losing its documents) exactly when the DEFAULT
dimension differs from the index dimension, independently of the current
embedding function's dimension: with `defaultDim ≠ idxDim` the collection is
recreated empty even if `efDim = idxDim`, and with `defaultDim = idxDim` it is
returned untouched even if `efDim ≠ idxDim`. -/
theorem claim_C9_bug (defaultDim idxDim efDim : Nat) (docs : List String) :
    (defaultDim ≠ idxDim →
      getCollectionWithDimensionCheck defaultDim [("c", ⟨idxDim, docs⟩)] "c" efDim
        = ([("c", ⟨efDim, []⟩)], ⟨efDim, []⟩))
    ∧ (defaultDim = idxDim →
      getCollectionWithDimensionCheck defaultDim [("c", ⟨idxDim, docs⟩)] "c" efDim
        = ([("c", ⟨idxDim, docs⟩)], ⟨idxDim, docs⟩)) := by
  constructor <;> intro h <;>
    simp [getCollectionWithDimensionCheck, lookupStore, updateStore, List.find?, h]

/-- Claim C9, witness: a 768-dim collection probed under a 768-dim embedding
function (dimensions agree) is still wiped, because the probe uses the 384-dim
default; a 384-dim collection under a 768-dim function (dimensions differ) is
returned untouched. -/
theorem claim_C9_witness :
    getCollectionWithDimensionCheck 384 [("c", ⟨768, ["doc"]⟩)] "c" 768
        = ([("c", ⟨768, []⟩)], ⟨768, []⟩)
    ∧ getCollectionWithDimensionCheck 384 [("c", ⟨384, ["doc"]⟩)] "c" 768
        = ([("c", ⟨384, ["doc"]⟩)], ⟨384, ["doc"]⟩) :=
  ⟨(claim_C9_bug 384 768 768 ["doc"]).1 (by decide),
   (claim_C9_bug 384 384 768 ["doc"]).2 rfl⟩

/-- Claim C10: `rerank` is total on unequal-length inputs: `zip` silently drops
the trailing elements of the longer list, so the result has exactly
`min RERANK_TOP_K (min |documents| |scores|)` pairs and coincides with reranking
the common prefixes. -/
theorem claim_C10_rerank_total (ce : String → String → ℚ) (q : String)
    (docs : List String) (scores : List ℚ) :
    (rerank ce q docs scores).length
        = min RERANK_TOP_K (min docs.length scores.length)
    ∧ rerank ce q docs scores
        = rerank ce q (docs.take (min docs.length scores.length))
            (scores.take (min docs.length scores.length)) := by
  constructor
  · simp only [rerank, List.length_take, List.length_insertionSort,
      List.length_map, List.length_zip]
    omega
  · simp only [rerank]
    rw [zip_map_take (fun doc => ce q doc) docs scores]

end Reachy
